import Mathlib

/-!
Verification of the RNA-seq DESeq classification pipeline (`app.py`).

The development shallowly embeds the core logic of the program:
row-level significance classification (`filter_deseq_data`, rows 63-76 of
the source), the `-log10(padj)` derived metric, the `Attributes` token
parser (`extract_gene_info`, rows 36-61), and the table-level pipeline
steps (gene-info annotation, `dropna`, the derived-view helpers and the
top-N-by-padj query).  Machine floats are modelled by exact rationals,
logarithms by `Real.logb`.
-/

namespace RnaseqViz

/-! ### Row-level classification (source: `filter_deseq_data`, rows 67-73) -/

/-- Row-level significance label, mirroring `np.select` applied to
`conditions = [padj < thr ∧ l2fc ≥ up, padj < thr ∧ l2fc ≤ down]` with
`choices = ['Upregulated', 'Downregulated']` and default
`'Not Significant'`: the first condition that holds wins. -/
def significance (padj l2fc padjT up down : ℚ) : String :=
  if padj < padjT ∧ up ≤ l2fc then "Upregulated"
  else if padj < padjT ∧ l2fc ≤ down then "Downregulated"
  else "Not Significant"

/-- Model of `Series.replace(0, 1e-300)` applied to one `padj` cell (source row 74):
only an exact zero is replaced; every other value passes through. -/
def replaceZeroPadj (q : ℚ) : ℚ :=
  if q = 0 then 1 / 10 ^ 300 else q

/-- Model of `-np.log10(padj.replace(0, 1e-300))` for one cell (source row 74). -/
noncomputable def negLog10Padj (q : ℚ) : ℝ :=
  -Real.logb 10 ((replaceZeroPadj q : ℚ) : ℝ)

/-- Modelled from the spec wording of claim C2 (not from the source): the
derived metric computed as `-log10(max(adjusted_p_value, 1e-300))`. -/
noncomputable def specNegLog10PadjMax (q : ℚ) : ℝ :=
  -Real.logb 10 ((max q (1 / 10 ^ 300) : ℚ) : ℝ)

/-! ### Helper lemmas about `Real.logb` at rational powers of ten -/

lemma log_ten_ne_zero : Real.log 10 ≠ 0 :=
  Real.log_ne_zero_of_pos_of_ne_one (by norm_num) (by norm_num)

lemma logb_ten_zpow (n : ℤ) : Real.logb 10 ((10 : ℝ) ^ n) = n := by
  rw [Real.logb, Real.log_zpow, mul_div_assoc, div_self log_ten_ne_zero, mul_one]

lemma ratCast_one_div_ten_pow (k : ℕ) :
    (((1 / 10 ^ k : ℚ) : ℝ)) = (10 : ℝ) ^ (-(k : ℤ)) := by
  push_cast
  rw [zpow_neg, zpow_natCast]
  norm_num

lemma logb_one_div_ten_pow (k : ℕ) :
    Real.logb 10 ((1 / 10 ^ k : ℚ) : ℝ) = -(k : ℝ) := by
  rw [ratCast_one_div_ten_pow, logb_ten_zpow]
  push_cast
  ring

/-! ### Claim C1: the significance classification -/

/-- Claim C1: a row is labelled `Upregulated` exactly when
`padj < padjT` and `l2fc ≥ up`; `Downregulated` exactly when it is not
`Upregulated` and `padj < padjT` and `l2fc ≤ down`; `Not Significant`
exactly when neither condition holds.  At `padj = padjT` the label is
always `Not Significant` (strict `<`); at `l2fc = up` with `padj < padjT`
the label is `Upregulated` (inclusive `≥`); and when both the up and the
down condition hold simultaneously (here forced by `up = down = l2fc`),
the up condition wins. -/
theorem claim_C1_significance_characterization (padj l2fc padjT up down : ℚ) :
    (significance padj l2fc padjT up down = "Upregulated" ↔
      padj < padjT ∧ up ≤ l2fc) ∧
    (significance padj l2fc padjT up down = "Downregulated" ↔
      ¬(padj < padjT ∧ up ≤ l2fc) ∧ padj < padjT ∧ l2fc ≤ down) ∧
    (significance padj l2fc padjT up down = "Not Significant" ↔
      ¬(padj < padjT ∧ up ≤ l2fc) ∧ ¬(padj < padjT ∧ l2fc ≤ down)) ∧
    (significance padjT l2fc padjT up down = "Not Significant") ∧
    (significance padj up padjT up down =
      if padj < padjT then "Upregulated" else "Not Significant") ∧
    (significance padj l2fc padjT l2fc l2fc =
      if padj < padjT then "Upregulated" else "Not Significant") := by
  unfold significance
  refine ⟨?_, ?_, ?_, ?_, ?_, ?_⟩ <;>
    split_ifs <;>
      simp_all [not_and_or, not_lt, le_refl, lt_irrefl]

/-! ### Claim C2: the derived `-log10(padj)` metric -/

/-- Claim C2 counterexample: at `padj = 1e-310` (a value strictly between
`0` and `1e-300`) the code's `replace(0, 1e-300)` leaves the value alone
and yields `310`, while the claimed formula
`-log10(max(padj, 1e-300))` yields `300`. -/
theorem claim_C2_counterexample :
    negLog10Padj (1 / 10 ^ 310) = 310 ∧
    specNegLog10PadjMax (1 / 10 ^ 310) = 300 ∧
    (310 : ℝ) ≠ 300 := by
  refine ⟨?_, ?_, by norm_num⟩
  · have h : replaceZeroPadj (1 / 10 ^ 310) = 1 / 10 ^ 310 := by
      unfold replaceZeroPadj
      norm_num
    rw [negLog10Padj, h, logb_one_div_ten_pow]
    norm_num
  · have h : max (1 / 10 ^ 310 : ℚ) (1 / 10 ^ 300) = 1 / 10 ^ 300 := by
      rw [max_eq_right]
      rw [div_le_div_iff₀ (by positivity) (by positivity)]
      norm_num
    rw [specNegLog10PadjMax, h, logb_one_div_ten_pow]
    norm_num

/-- Claim C2 (amended): the code computes
`neg_log10_padj = -log10(padj)` after replacing an exactly-zero `padj`
(and only an exactly-zero one) by `1e-300`; in particular `padj = 0`
yields exactly `300`, never an infinite or error result. -/
theorem claim_C2_neg_log10_replace_zero (q : ℚ) :
    negLog10Padj q = if q = 0 then 300 else -Real.logb 10 (q : ℝ) := by
  unfold negLog10Padj replaceZeroPadj
  split_ifs with h
  · rw [logb_one_div_ten_pow]
    norm_num
  · rfl

/-! ### The `Attributes` parser (source: `extract_gene_info`, rows 36-61) -/

/-- Predicate `startsWithKey key cs`: holds when `key` is an initial segment of `cs`. -/
def startsWithKey : List Char → List Char → Bool
  | [], _ => true
  | _ :: _, [] => false
  | k :: ks, c :: cs => k == c && startsWithKey ks cs

/-- Semantics of `re.search(key + "([^;]+)", s)`: scan left to right for
the first position where the literal `key` occurs followed by at least one
character other than `;`; the captured value is the maximal run of
non-`;` characters after the key.  Returns `none` when the pattern
matches nowhere. -/
def searchValue (key : List Char) : List Char → Option (List Char)
  | [] => none
  | c :: cs =>
    if startsWithKey key (c :: cs) then
      let v := ((c :: cs).drop key.length).takeWhile (fun x => x != ';')
      if v.isEmpty then searchValue key cs else some v
    else searchValue key cs

/-- Model of `extract_gene_info` (source rows 36-61): `gene=` value, with the
`Name=` / `product=` (truncated to 30 characters) fallback taken whenever
the gene name is still the string `"Unknown"`; `locus_tag=` value or
`"Unknown"`.  `none` models a null / missing attribute cell. -/
def extract_gene_info (attributes_str : Option String) : String × String :=
  match attributes_str with
  | none => ("Unknown", "Unknown")
  | some s =>
    let cs := s.data
    let geneName0 : String :=
      match searchValue "gene=".data cs with
      | some v => String.mk v
      | none => "Unknown"
    let locusTag : String :=
      match searchValue "locus_tag=".data cs with
      | some v => String.mk v
      | none => "Unknown"
    let geneName : String :=
      if geneName0 = "Unknown" then
        match searchValue "Name=".data cs with
        | some v => String.mk v
        | none =>
          match searchValue "product=".data cs with
          | some v => String.mk (v.take 30)
          | none => "Unknown"
      else geneName0
    (geneName, locusTag)

/-- Amended claim C3, written out as a function: `gene_name` is the value
of a `gene=` token when present and not itself the literal string
`"Unknown"`; otherwise the `Name=` value, else the `product=` value
truncated to 30 characters, else `"Unknown"`; `locus_tag` analogously. -/
def specExtractGeneInfo (attributes_str : Option String) : String × String :=
  match attributes_str with
  | none => ("Unknown", "Unknown")
  | some s =>
    let cs := s.data
    let fallback : String :=
      match searchValue "Name=".data cs with
      | some v => String.mk v
      | none =>
        match searchValue "product=".data cs with
        | some v => String.mk (v.take 30)
        | none => "Unknown"
    let geneName : String :=
      match searchValue "gene=".data cs with
      | some v => if String.mk v = "Unknown" then fallback else String.mk v
      | none => fallback
    let locusTag : String :=
      match searchValue "locus_tag=".data cs with
      | some v => String.mk v
      | none => "Unknown"
    (geneName, locusTag)

/-- Claim C3 counterexample: on `"gene=Unknown;Name=foo"` a `gene=` token
is present with value `"Unknown"`, yet the parser returns the `Name=`
value `"foo"` as `gene_name` instead of that token's value. -/
theorem claim_C3_counterexample :
    searchValue "gene=".data ("gene=Unknown;Name=foo").data =
      some "Unknown".data ∧
    (extract_gene_info (some "gene=Unknown;Name=foo")).1 = "foo" ∧
    ("foo" : String) ≠ "Unknown" := by
  refine ⟨by decide, by decide, by decide⟩

/-- Claim C3 (amended): the parser behaves exactly as the claim states,
except that a `gene=` token whose value is the literal string `"Unknown"`
also triggers the `Name=` / `product=` fallback chain. -/
theorem claim_C3_parser_amended (a : Option String) :
    extract_gene_info a = specExtractGeneInfo a := by
  cases a with
  | none => rfl
  | some s =>
    unfold extract_gene_info specExtractGeneInfo
    cases h : searchValue "gene=".data s.data with
    | none => simp [h]
    | some v => simp [h]

/-- Claim C10: key matching is by raw substring, not by `;`-delimited key
boundaries — a key occurring only as the suffix of a longer key still
matches, for each of the four patterns. -/
theorem claim_C10_substring_key_matching :
    extract_gene_info (some "pseudogene=abcD;locus_tag=b0001") =
      ("abcD", "b0001") ∧
    (extract_gene_info (some "SurName=bob")).1 = "bob" ∧
    (extract_gene_info (some "byproduct=xyz")).1 = "xyz" ∧
    (extract_gene_info (some "old_locus_tag=b4321")).2 = "b4321" := by
  refine ⟨by decide, by decide, by decide, by decide⟩

/-! ### Table-level model of the pandas data frame -/

/-- One cell of a data frame: a string, an exact rational (modelling a
float read from the input file), a real number (produced only by the
logarithmic transforms), or a missing value (`NA` / `NaN`). -/
inductive Cell where
  | str (s : String)
  | num (q : ℚ)
  | real (x : ℝ)
  | null

/-- A data frame: named columns, and rows of cells aligned with the
column list. -/
structure DFrame where
  cols : List String
  rows : List (List Cell)

/-- Well-formedness: every row has exactly one cell per column. -/
def WF (df : DFrame) : Prop :=
  ∀ r ∈ df.rows, r.length = df.cols.length

instance (df : DFrame) : Decidable (WF df) :=
  inferInstanceAs (Decidable (∀ r ∈ df.rows, r.length = df.cols.length))

/-- Index of the first column with the given name. -/
def colIdx : List String → String → Option Nat
  | [], _ => none
  | c :: cs, n => if c = n then some 0 else (colIdx cs n).map (· + 1)

/-- Model of `name in df.columns`. -/
def hasCol (df : DFrame) (n : String) : Bool :=
  (colIdx df.cols n).isSome

/-- The cells of the named column, top to bottom; `none` when absent. -/
def getCol (df : DFrame) (n : String) : Option (List Cell) :=
  (colIdx df.cols n).map fun i => df.rows.map (fun r => r.getD i Cell.null)

/-- Column assignment `df[name] = vals`: overwrite the column in place
when it exists, else append a new column on the right (pandas
semantics).  `vals` is expected to carry one cell per row. -/
def setCol (df : DFrame) (n : String) (vals : List Cell) : DFrame :=
  match colIdx df.cols n with
  | some i => ⟨df.cols, List.zipWith (fun r v => r.set i v) df.rows vals⟩
  | none => ⟨df.cols ++ [n], List.zipWith (fun r v => r ++ [v]) df.rows vals⟩

/-- Is this cell a pandas missing value? -/
def cellIsNull : Cell → Bool
  | Cell.null => true
  | _ => false

/-- A numeric cell (`some (some q)`), a missing cell (`some none`), or a
cell on which a vectorized numeric operation would raise (`none`). -/
def cellNumOpt : Cell → Option (Option ℚ)
  | Cell.num q => some (some q)
  | Cell.null => some none
  | _ => none

/-- Read a list of cells as numbers-with-missing-values, failing on any
non-numeric cell. -/
def cellsNum : List Cell → Option (List (Option ℚ))
  | [] => some []
  | c :: cs =>
    match cellNumOpt c, cellsNum cs with
    | some o, some os => some (o :: os)
    | _, _ => none

/-- Read the named column as numbers-with-missing-values; `none` when the
column is absent or holds a non-numeric cell. -/
def getNumCol (df : DFrame) (n : String) : Option (List (Option ℚ)) :=
  (getCol df n).bind cellsNum

/-- Row-level classification with possibly-missing inputs: in pandas a
comparison against `NaN` is false, so a missing `padj` or
`log2FoldChange` yields `Not Significant`. -/
def significanceO (p l : Option ℚ) (padjT up down : ℚ) : String :=
  match p, l with
  | some p, some l => significance p l padjT up down
  | _, _ => "Not Significant"

/-- Model of `-log10(padj.replace(0, 1e-300))` for one cell; `NaN` propagates. -/
noncomputable def negLog10Cell : Option ℚ → Cell
  | some p => Cell.real (negLog10Padj p)
  | none => Cell.null

/-- Model of `filter_deseq_data` at table level (source rows 63-76): copy the
frame, derive the `Significance` column via `np.select`, then the
`-log10(padj)` column.  `none` models the exception pandas raises when
`padj` or `log2FoldChange` is absent or non-numeric. -/
noncomputable def filter_deseq_data (df : DFrame) (padjT up down : ℚ) :
    Option DFrame :=
  match getNumCol df "padj", getNumCol df "log2FoldChange" with
  | some ps, some ls =>
    let sigCells :=
      (ps.zip ls).map fun x => Cell.str (significanceO x.1 x.2 padjT up down)
    let logCells := ps.map negLog10Cell
    some (setCol (setCol df "Significance" sigCells) "-log10(padj)" logCells)
  | _, _ => none

/-- Model of `df.dropna(subset=['log2FoldChange', 'padj'])` (source row 193): keep
exactly the rows with non-missing cells in both columns; `none` models
the `KeyError` raised when either column is absent. -/
def dropnaCritical (df : DFrame) : Option DFrame :=
  match colIdx df.cols "log2FoldChange", colIdx df.cols "padj" with
  | some i, some j =>
    some ⟨df.cols,
      df.rows.filter fun r =>
        !cellIsNull (r.getD i Cell.null) && !cellIsNull (r.getD j Cell.null)⟩
  | _, _ => none

/-- A cell as the argument of `extract_gene_info`: `pd.isna` holds only
for the missing cell; other cells pass through `str(...)`.  (Real-valued
cells occur only in derived columns, which are never parsed; their
stringification is irrelevant and modelled as `""`.) -/
def cellAttr : Cell → Option String
  | Cell.str s => some s
  | Cell.num q => some (toString q)
  | Cell.real _ => some ""
  | Cell.null => none

/-- The gene-annotation step (source rows 184-190): when an `Attributes`
column exists, build `gene_name` and `locus_tag` by running
`extract_gene_info` over it; otherwise set both columns to the
stringified positional row index and raise the caller-visible warning
flag (the `Bool` of the result). -/
def addGeneInfo (df : DFrame) : DFrame × Bool :=
  match getCol df "Attributes" with
  | some cells =>
    let infos := cells.map fun c => extract_gene_info (cellAttr c)
    (setCol (setCol df "gene_name" (infos.map fun i => Cell.str i.1))
      "locus_tag" (infos.map fun i => Cell.str i.2), false)
  | none =>
    let idx := (List.range df.rows.length).map fun i => Cell.str (toString i)
    (setCol (setCol df "gene_name" idx) "locus_tag" idx, true)

/-! ### Lemmas on the frame primitives -/

lemma colIdx_lt {cols : List String} {n : String} {i : ℕ}
    (h : colIdx cols n = some i) : i < cols.length := by
  induction cols generalizing i with
  | nil => simp [colIdx] at h
  | cons c cs ih =>
    by_cases hc : c = n
    · simp only [colIdx, if_pos hc, Option.some.injEq] at h
      simp only [List.length_cons]
      omega
    · simp only [colIdx, if_neg hc, Option.map_eq_some'] at h
      obtain ⟨k, hk, rfl⟩ := h
      have := ih hk
      simp only [List.length_cons]
      omega

lemma colIdx_getD {cols : List String} {n : String} {i : ℕ}
    (h : colIdx cols n = some i) : cols.getD i "" = n := by
  induction cols generalizing i with
  | nil => simp [colIdx] at h
  | cons c cs ih =>
    by_cases hc : c = n
    · simp only [colIdx, if_pos hc, Option.some.injEq] at h
      subst h
      simpa using hc
    · simp only [colIdx, if_neg hc, Option.map_eq_some'] at h
      obtain ⟨k, hk, rfl⟩ := h
      simpa using ih hk

lemma colIdx_isSome_iff_mem {cols : List String} {n : String} :
    (colIdx cols n).isSome ↔ n ∈ cols := by
  induction cols with
  | nil => simp [colIdx]
  | cons c cs ih =>
    by_cases hc : c = n
    · simp [colIdx, if_pos hc, hc]
    · have hmap : ∀ o : Option ℕ, (o.map (· + 1)).isSome = o.isSome := by
        intro o
        cases o <;> rfl
      simp only [colIdx, if_neg hc, List.mem_cons, hmap]
      rw [ih]
      constructor
      · exact Or.inr
      · rintro (h | h)
        · exact absurd h.symm hc
        · exact h

lemma colIdx_append_left {cols : List String} {n : String} {i : ℕ}
    (h : colIdx cols n = some i) (l : List String) :
    colIdx (cols ++ l) n = some i := by
  induction cols generalizing i with
  | nil => simp [colIdx] at h
  | cons c cs ih =>
    by_cases hc : c = n
    · simp only [colIdx, if_pos hc, Option.some.injEq] at h
      simp only [List.cons_append, colIdx, if_pos hc, h]
    · simp only [colIdx, if_neg hc, Option.map_eq_some'] at h
      obtain ⟨k, hk, rfl⟩ := h
      rw [List.cons_append]
      simp only [colIdx, if_neg hc, List.append_eq]
      rw [ih hk]
      rfl

lemma colIdx_append_none {cols : List String} {n : String}
    (h : colIdx cols n = none) (l : List String) :
    colIdx (cols ++ l) n = (colIdx l n).map (· + cols.length) := by
  induction cols with
  | nil => simp
  | cons c cs ih =>
    by_cases hc : c = n
    · simp [colIdx, if_pos hc] at h
    · simp only [colIdx, if_neg hc, Option.map_eq_none'] at h
      rw [List.cons_append]
      simp only [colIdx, if_neg hc, List.append_eq]
      rw [ih h]
      cases hl : colIdx l n with
      | none => rfl
      | some k =>
        simp only [Option.map_some', List.length_cons, Option.some.injEq]
        omega

lemma getD_set_self {α : Type _} (v d : α) :
    ∀ (l : List α) (i : ℕ), i < l.length → (l.set i v).getD i d = v := by
  intro l
  induction l with
  | nil => intro i h; simp at h
  | cons a l ih =>
    intro i h
    cases i with
    | zero => rfl
    | succ k =>
      simp only [List.set_cons_succ, List.getD_cons_succ]
      exact ih k (by simpa using h)

lemma getD_set_ne {α : Type _} (v d : α) :
    ∀ (l : List α) (i k : ℕ), i ≠ k → (l.set i v).getD k d = l.getD k d := by
  intro l
  induction l with
  | nil => intro i k _; rfl
  | cons a l ih =>
    intro i k h
    cases i with
    | zero =>
      cases k with
      | zero => exact absurd rfl h
      | succ k2 => rfl
    | succ i2 =>
      cases k with
      | zero => rfl
      | succ k2 =>
        simp only [List.set_cons_succ, List.getD_cons_succ]
        exact ih i2 k2 (fun he => h (by rw [he]))

lemma mem_zipWith_cases {α β γ : Type _} {f : α → β → γ} :
    ∀ {l1 : List α} {l2 : List β} {c : γ}, c ∈ List.zipWith f l1 l2 →
      ∃ a ∈ l1, ∃ b ∈ l2, c = f a b := by
  intro l1
  induction l1 with
  | nil => intro l2 c h; simp at h
  | cons a l1 ih =>
    intro l2 c h
    cases l2 with
    | nil => simp at h
    | cons b l2 =>
      simp only [List.zipWith_cons_cons, List.mem_cons] at h
      rcases h with h | h
      · exact ⟨a, List.mem_cons_self a l1, b, List.mem_cons_self b l2, h⟩
      · obtain ⟨x, hx, y, hy, hc⟩ := ih h
        exact ⟨x, List.mem_cons_of_mem a hx, y, List.mem_cons_of_mem b hy, hc⟩

lemma map_getD_zipWith_set {α : Type _} (i : ℕ) (d : α) :
    ∀ (rows : List (List α)) (vals : List α),
      vals.length = rows.length → (∀ r ∈ rows, i < r.length) →
      (List.zipWith (fun r v => r.set i v) rows vals).map
        (fun r => r.getD i d) = vals := by
  intro rows
  induction rows with
  | nil =>
    intro vals hlen _
    cases vals with
    | nil => rfl
    | cons v vs => simp at hlen
  | cons r rs ih =>
    intro vals hlen hwf
    cases vals with
    | nil => simp at hlen
    | cons v vs =>
      simp only [List.zipWith_cons_cons, List.map_cons]
      rw [getD_set_self v d r i (hwf r (List.mem_cons_self r rs))]
      rw [ih vs (by simpa using hlen) (fun x hx => hwf x (List.mem_cons_of_mem r hx))]

lemma map_getD_zipWith_set_ne {α : Type _} (i k : ℕ) (hik : i ≠ k) (d : α) :
    ∀ (rows : List (List α)) (vals : List α),
      (List.zipWith (fun r v => r.set i v) rows vals).map
        (fun r => r.getD k d) =
      (rows.take vals.length).map (fun r => r.getD k d) := by
  intro rows
  induction rows with
  | nil => intro vals; simp
  | cons r rs ih =>
    intro vals
    cases vals with
    | nil => simp
    | cons v vs =>
      simp only [List.zipWith_cons_cons, List.map_cons, List.length_cons,
        List.take_succ_cons]
      rw [getD_set_ne v d r i k hik, ih vs]

lemma map_getD_zipWith_append {α : Type _} (k : ℕ) (d : α) :
    ∀ (rows : List (List α)) (vals : List α),
      (∀ r ∈ rows, k < r.length) →
      (List.zipWith (fun r v => r ++ [v]) rows vals).map
        (fun r => r.getD k d) =
      (rows.take vals.length).map (fun r => r.getD k d) := by
  intro rows
  induction rows with
  | nil => intro vals _; simp
  | cons r rs ih =>
    intro vals hwf
    cases vals with
    | nil => simp
    | cons v vs =>
      simp only [List.zipWith_cons_cons, List.map_cons, List.length_cons,
        List.take_succ_cons]
      rw [List.getD_append r [v] d k (hwf r (List.mem_cons_self r rs))]
      rw [ih vs (fun x hx => hwf x (List.mem_cons_of_mem r hx))]

lemma map_getD_zipWith_append_self {α : Type _} (L : ℕ) (d : α) :
    ∀ (rows : List (List α)) (vals : List α),
      vals.length = rows.length → (∀ r ∈ rows, r.length = L) →
      (List.zipWith (fun r v => r ++ [v]) rows vals).map
        (fun r => r.getD L d) = vals := by
  intro rows
  induction rows with
  | nil =>
    intro vals hlen _
    cases vals with
    | nil => rfl
    | cons v vs => simp at hlen
  | cons r rs ih =>
    intro vals hlen hwf
    cases vals with
    | nil => simp at hlen
    | cons v vs =>
      simp only [List.zipWith_cons_cons, List.map_cons]
      have hr : r.length = L := hwf r (List.mem_cons_self r rs)
      rw [List.getD_append_right r [v] d L (by omega)]
      simp only [hr, Nat.sub_self, List.getD_cons_zero]
      rw [ih vs (by simpa using hlen) (fun x hx => hwf x (List.mem_cons_of_mem r hx))]

lemma setCol_cols_of_mem {df : DFrame} {n : String} {i : ℕ}
    (h : colIdx df.cols n = some i) (vals : List Cell) :
    (setCol df n vals).cols = df.cols := by
  simp [setCol, h]

lemma setCol_rows_of_mem {df : DFrame} {n : String} {i : ℕ}
    (h : colIdx df.cols n = some i) (vals : List Cell) :
    (setCol df n vals).rows =
      List.zipWith (fun r v => r.set i v) df.rows vals := by
  simp [setCol, h]

lemma setCol_cols_of_new {df : DFrame} {n : String}
    (h : colIdx df.cols n = none) (vals : List Cell) :
    (setCol df n vals).cols = df.cols ++ [n] := by
  simp [setCol, h]

lemma setCol_rows_of_new {df : DFrame} {n : String}
    (h : colIdx df.cols n = none) (vals : List Cell) :
    (setCol df n vals).rows =
      List.zipWith (fun r v => r ++ [v]) df.rows vals := by
  simp [setCol, h]

lemma setCol_rows_length {df : DFrame} {n : String} {vals : List Cell}
    (hlen : vals.length = df.rows.length) :
    (setCol df n vals).rows.length = df.rows.length := by
  cases h : colIdx df.cols n with
  | some i =>
    rw [setCol_rows_of_mem h, List.length_zipWith, hlen, Nat.min_self]
  | none =>
    rw [setCol_rows_of_new h, List.length_zipWith, hlen, Nat.min_self]

lemma WF_setCol {df : DFrame} {n : String} {vals : List Cell}
    (hwf : WF df) : WF (setCol df n vals) := by
  intro r hr
  cases h : colIdx df.cols n with
  | some i =>
    rw [setCol_rows_of_mem h] at hr
    obtain ⟨a, ha, b, _, rfl⟩ := mem_zipWith_cases hr
    rw [setCol_cols_of_mem h]
    simpa using hwf a ha
  | none =>
    rw [setCol_rows_of_new h] at hr
    obtain ⟨a, ha, b, _, rfl⟩ := mem_zipWith_cases hr
    rw [setCol_cols_of_new h]
    simpa using hwf a ha

lemma getCol_length {df : DFrame} {n : String} {cells : List Cell}
    (h : getCol df n = some cells) : cells.length = df.rows.length := by
  unfold getCol at h
  cases hc : colIdx df.cols n <;> rw [hc] at h
  · simp at h
  · simp only [Option.map_some', Option.some.injEq] at h
    subst h
    simp

lemma cellsNum_length :
    ∀ {cells : List Cell} {os : List (Option ℚ)},
      cellsNum cells = some os → os.length = cells.length := by
  intro cells
  induction cells with
  | nil =>
    intro os h
    simp only [cellsNum, Option.some.injEq] at h
    subst h
    rfl
  | cons c cs ih =>
    intro os h
    simp only [cellsNum] at h
    cases h1 : cellNumOpt c <;> rw [h1] at h
    · simp at h
    · cases h2 : cellsNum cs <;> rw [h2] at h
      · simp at h
      · simp only [Option.some.injEq] at h
        subst h
        simpa using ih h2

lemma getNumCol_length {df : DFrame} {n : String} {os : List (Option ℚ)}
    (h : getNumCol df n = some os) : os.length = df.rows.length := by
  unfold getNumCol at h
  cases hg : getCol df n <;> rw [hg] at h
  · simp at h
  · rw [Option.some_bind] at h
    rw [cellsNum_length h]
    exact getCol_length hg

lemma getCol_setCol_self (df : DFrame) (n : String) (vals : List Cell)
    (hwf : WF df) (hlen : vals.length = df.rows.length) :
    getCol (setCol df n vals) n = some vals := by
  cases h : colIdx df.cols n with
  | some i =>
    unfold getCol
    rw [setCol_cols_of_mem h, setCol_rows_of_mem h, h, Option.map_some']
    congr 1
    exact map_getD_zipWith_set i Cell.null df.rows vals hlen
      (fun r hr => by rw [hwf r hr]; exact colIdx_lt h)
  | none =>
    unfold getCol
    rw [setCol_cols_of_new h, setCol_rows_of_new h]
    rw [colIdx_append_none h [n]]
    have h0 : colIdx [n] n = some 0 := by simp [colIdx]
    rw [h0]
    simp only [Option.map_some', Nat.zero_add]
    congr 1
    exact map_getD_zipWith_append_self df.cols.length Cell.null df.rows vals hlen hwf

lemma getCol_setCol_ne (df : DFrame) {n m : String} (vals : List Cell)
    (hm : m ≠ n) (hwf : WF df) (hlen : vals.length = df.rows.length) :
    getCol (setCol df n vals) m = getCol df m := by
  cases h : colIdx df.cols n with
  | some i =>
    unfold getCol
    rw [setCol_cols_of_mem h, setCol_rows_of_mem h]
    cases hm2 : colIdx df.cols m with
    | none => rfl
    | some k =>
      simp only [Option.map_some']
      congr 1
      have hik : i ≠ k := by
        intro he
        subst he
        exact hm ((colIdx_getD hm2).symm.trans (colIdx_getD h))
      rw [map_getD_zipWith_set_ne i k hik Cell.null df.rows vals, hlen,
        List.take_length]
  | none =>
    unfold getCol
    rw [setCol_cols_of_new h, setCol_rows_of_new h]
    cases hm2 : colIdx df.cols m with
    | some k =>
      rw [colIdx_append_left hm2 [n]]
      simp only [Option.map_some']
      congr 1
      rw [map_getD_zipWith_append k Cell.null df.rows vals
        (fun r hr => by rw [hwf r hr]; exact colIdx_lt hm2), hlen,
        List.take_length]
    | none =>
      rw [colIdx_append_none hm2 [n]]
      have hnm : ¬n = m := fun he => hm he.symm
      have h0 : colIdx [n] m = none := by
        simp [colIdx, hnm]
      rw [h0]
      rfl

lemma significance_mem (p l t u d : ℚ) :
    significance p l t u d = "Upregulated" ∨
    significance p l t u d = "Downregulated" ∨
    significance p l t u d = "Not Significant" := by
  unfold significance
  split_ifs <;> simp

lemma significanceO_mem (p l : Option ℚ) (t u d : ℚ) :
    significanceO p l t u d = "Upregulated" ∨
    significanceO p l t u d = "Downregulated" ∨
    significanceO p l t u d = "Not Significant" := by
  cases p with
  | none => cases l <;> simp [significanceO]
  | some pv =>
    cases l with
    | none => simp [significanceO]
    | some lv => exact significance_mem pv lv t u d

lemma filterT_eq {df : DFrame} {t u d : ℚ} {ps ls : List (Option ℚ)}
    (hp : getNumCol df "padj" = some ps)
    (hl : getNumCol df "log2FoldChange" = some ls) :
    filter_deseq_data df t u d =
      some (setCol
        (setCol df "Significance"
          ((ps.zip ls).map fun x => Cell.str (significanceO x.1 x.2 t u d)))
        "-log10(padj)" (ps.map negLog10Cell)) := by
  unfold filter_deseq_data
  rw [hp, hl]

lemma filterT_sig_col {df : DFrame} {t u d : ℚ} {ps ls : List (Option ℚ)}
    {out : DFrame}
    (hp : getNumCol df "padj" = some ps)
    (hl : getNumCol df "log2FoldChange" = some ls)
    (hwf : WF df)
    (hout : filter_deseq_data df t u d = some out) :
    getCol out "Significance" =
      some ((ps.zip ls).map fun x => Cell.str (significanceO x.1 x.2 t u d)) := by
  rw [filterT_eq hp hl, Option.some.injEq] at hout
  subst hout
  have hps := getNumCol_length hp
  have hls := getNumCol_length hl
  have hsl : ((ps.zip ls).map fun x =>
      Cell.str (significanceO x.1 x.2 t u d)).length = df.rows.length := by
    simp [hps, hls]
  have hll : (ps.map negLog10Cell).length =
      (setCol df "Significance"
        ((ps.zip ls).map fun x =>
          Cell.str (significanceO x.1 x.2 t u d))).rows.length := by
    rw [setCol_rows_length hsl]
    simp [hps]
  rw [getCol_setCol_ne _ _ (by decide) (WF_setCol hwf) hll]
  exact getCol_setCol_self _ _ _ hwf hsl

lemma filterT_other_col {df : DFrame} {t u d : ℚ} {ps ls : List (Option ℚ)}
    {out : DFrame}
    (hp : getNumCol df "padj" = some ps)
    (hl : getNumCol df "log2FoldChange" = some ls)
    (hwf : WF df)
    (hout : filter_deseq_data df t u d = some out)
    (m : String) (hm1 : m ≠ "Significance") (hm2 : m ≠ "-log10(padj)") :
    getCol out m = getCol df m := by
  rw [filterT_eq hp hl, Option.some.injEq] at hout
  subst hout
  have hps := getNumCol_length hp
  have hls := getNumCol_length hl
  have hsl : ((ps.zip ls).map fun x =>
      Cell.str (significanceO x.1 x.2 t u d)).length = df.rows.length := by
    simp [hps, hls]
  have hll : (ps.map negLog10Cell).length =
      (setCol df "Significance"
        ((ps.zip ls).map fun x =>
          Cell.str (significanceO x.1 x.2 t u d))).rows.length := by
    rw [setCol_rows_length hsl]
    simp [hps]
  rw [getCol_setCol_ne _ _ hm2 (WF_setCol hwf) hll]
  exact getCol_setCol_ne _ _ hm1 hwf hsl

lemma filterT_inv {df : DFrame} {t u d : ℚ} {out : DFrame}
    (hout : filter_deseq_data df t u d = some out) :
    ∃ ps ls, getNumCol df "padj" = some ps ∧
      getNumCol df "log2FoldChange" = some ls := by
  unfold filter_deseq_data at hout
  cases hp : getNumCol df "padj" with
  | none =>
    rw [hp] at hout
    exact Option.noConfusion hout
  | some ps =>
    cases hl : getNumCol df "log2FoldChange" with
    | none =>
      rw [hp, hl] at hout
      exact Option.noConfusion hout
    | some ls => exact ⟨ps, ls, rfl, rfl⟩

/-! ### Claim C4: the dropna ingestion invariant -/

/-- Claim C4: after `dropna(subset=['log2FoldChange', 'padj'])` the
working table keeps the columns and contains exactly the input rows with
non-missing cells in both critical columns — removed entirely (the
surviving rows form a sublist), not merely marked — and every surviving
row of a successful classification pass carries one of the three
significance labels. -/
theorem claim_C4_ingestion_invariant (df out : DFrame) (i j : ℕ)
    (hwf : WF df)
    (hi : colIdx df.cols "log2FoldChange" = some i)
    (hj : colIdx df.cols "padj" = some j)
    (hdrop : dropnaCritical df = some out) :
    out.cols = df.cols ∧
    (∀ r, r ∈ out.rows ↔ r ∈ df.rows ∧
      cellIsNull (r.getD i Cell.null) = false ∧
      cellIsNull (r.getD j Cell.null) = false) ∧
    out.rows.Sublist df.rows ∧
    (∀ t u d out2, filter_deseq_data out t u d = some out2 →
      ∀ cells, getCol out2 "Significance" = some cells →
        ∀ c ∈ cells, c = Cell.str "Upregulated" ∨
          c = Cell.str "Downregulated" ∨ c = Cell.str "Not Significant") := by
  unfold dropnaCritical at hdrop
  rw [hi, hj, Option.some.injEq] at hdrop
  subst hdrop
  refine ⟨rfl, ?_, List.filter_sublist _, ?_⟩
  · intro r
    rw [List.mem_filter]
    simp [Bool.and_eq_true, Bool.not_eq_true']
  · intro t u d out2 hout2 cells hcells c hc
    obtain ⟨ps, ls, hp, hl⟩ := filterT_inv hout2
    have hwfout : WF ⟨df.cols, df.rows.filter fun r =>
        !cellIsNull (r.getD i Cell.null) && !cellIsNull (r.getD j Cell.null)⟩ :=
      fun r hr => hwf r (List.mem_of_mem_filter hr)
    have hsig := filterT_sig_col hp hl hwfout hout2
    rw [hcells, Option.some.injEq] at hsig
    subst hsig
    rw [List.mem_map] at hc
    obtain ⟨x, _, rfl⟩ := hc
    rcases significanceO_mem x.1 x.2 t u d with h | h | h <;> rw [h] <;> simp

/-- Concrete three-row frame for the C4 witness: one complete row, one
missing `log2FoldChange`, one missing `padj`. -/
def dfC4 : DFrame :=
  ⟨["log2FoldChange", "padj"],
   [[Cell.num 2, Cell.num 0],
    [Cell.null, Cell.num 1],
    [Cell.num 1, Cell.null]]⟩

/-- Witness for claim C4 at a concrete frame. -/
theorem claim_C4_witness :
    ((dropnaCritical dfC4).getD ⟨[], []⟩).cols = dfC4.cols ∧
    ((dropnaCritical dfC4).getD ⟨[], []⟩).rows.Sublist dfC4.rows := by
  have h := claim_C4_ingestion_invariant dfC4
    ((dropnaCritical dfC4).getD ⟨[], []⟩) 0 1 (by decide) rfl rfl rfl
  exact ⟨h.1, h.2.2.1⟩

/-! ### Claim C5: the frame condition of `filter_deseq_data` -/

/-- One-row frame that already carries a `Significance` column (as a
re-uploaded export of this very tool would). -/
def dfC5 : DFrame :=
  ⟨["padj", "log2FoldChange", "Significance"],
   [[Cell.num 1, Cell.num 0, Cell.str "Upregulated"]]⟩

/-- Claim C5 counterexample: on an input that already has a
`Significance` column the classifier overwrites that pre-existing column
in place, so the returned table does not equal the input on every
pre-existing column. -/
theorem claim_C5_counterexample :
    getCol dfC5 "Significance" = some [Cell.str "Upregulated"] ∧
    (filter_deseq_data dfC5 1 1 (-1)).map (fun o => getCol o "Significance") =
      some (some [Cell.str "Not Significant"]) ∧
    ("Upregulated" : String) ≠ "Not Significant" := by
  exact ⟨rfl, rfl, by decide⟩

/-- Claim C5 (amended): the classifier returns a fresh frame (the
source's `df.copy()`; the input value is untouched), equal to the input
on every pre-existing column other than the two derived names
`Significance` and `-log10(padj)`; when neither derived name already
occurs, the column list is extended by exactly those two columns; a
pre-existing column of either name is overwritten in place. -/
theorem claim_C5_frame_amended (df out : DFrame) (t u d : ℚ)
    (ps ls : List (Option ℚ)) (hwf : WF df)
    (hp : getNumCol df "padj" = some ps)
    (hl : getNumCol df "log2FoldChange" = some ls)
    (hout : filter_deseq_data df t u d = some out) :
    (∀ m ∈ df.cols, m ≠ "Significance" → m ≠ "-log10(padj)" →
      getCol out m = getCol df m) ∧
    ("Significance" ∉ df.cols → "-log10(padj)" ∉ df.cols →
      out.cols = df.cols ++ ["Significance", "-log10(padj)"]) ∧
    out.rows.length = df.rows.length := by
  have hps := getNumCol_length hp
  have hls := getNumCol_length hl
  refine ⟨fun m _ hm1 hm2 => filterT_other_col hp hl hwf hout m hm1 hm2, ?_, ?_⟩
  · intro hs hg
    rw [filterT_eq hp hl, Option.some.injEq] at hout
    subst hout
    have hcs : colIdx df.cols "Significance" = none := by
      rw [← Option.not_isSome_iff_eq_none, colIdx_isSome_iff_mem]
      exact hs
    rw [setCol_cols_of_new (by
      rw [← Option.not_isSome_iff_eq_none, colIdx_isSome_iff_mem,
        setCol_cols_of_new hcs]
      simp [hg])]
    rw [setCol_cols_of_new hcs, List.append_assoc]
    rfl
  · rw [filterT_eq hp hl, Option.some.injEq] at hout
    subst hout
    have hsl : ((ps.zip ls).map fun x =>
        Cell.str (significanceO x.1 x.2 t u d)).length = df.rows.length := by
      simp [hps, hls]
    rw [setCol_rows_length (by rw [setCol_rows_length hsl]; simp [hps]),
      setCol_rows_length hsl]

/-- One-row frame with only the two critical columns, classified
`Upregulated` at thresholds `(1, 1, -1)`. -/
def dfUp : DFrame :=
  ⟨["padj", "log2FoldChange"], [[Cell.num 0, Cell.num 2]]⟩

/-- Witness for the amended claim C5 at a concrete frame. -/
theorem claim_C5_witness :
    ((filter_deseq_data dfUp 1 1 (-1)).getD ⟨[], []⟩).cols =
      ["padj", "log2FoldChange", "Significance", "-log10(padj)"] ∧
    ((filter_deseq_data dfUp 1 1 (-1)).getD ⟨[], []⟩).rows.length = 1 := by
  have h := claim_C5_frame_amended dfUp
    ((filter_deseq_data dfUp 1 1 (-1)).getD ⟨[], []⟩) 1 1 (-1)
    [some 0] [some 2] (by decide) rfl rfl rfl
  exact ⟨h.2.1 (by decide) (by decide), h.2.2⟩

/-! ### Claim C6: determinism and row-locality of recomputation -/

/-- Claim C6: the classification pass is deterministic — identical input
frames and thresholds give identical annotated output — and each row's
`Significance` entry is a function of only that row's
`(padj, log2FoldChange)` pair and the thresholds (the column is the
row-wise map of `significanceO` over the zipped input columns). -/
theorem claim_C6_recompute_deterministic (df df2 out : DFrame) (t u d : ℚ)
    (ps ls : List (Option ℚ)) (hwf : WF df)
    (hp : getNumCol df "padj" = some ps)
    (hl : getNumCol df "log2FoldChange" = some ls)
    (hout : filter_deseq_data df t u d = some out) :
    (df = df2 → filter_deseq_data df2 t u d = some out) ∧
    getCol out "Significance" =
      some ((ps.zip ls).map fun x => Cell.str (significanceO x.1 x.2 t u d)) :=
  ⟨fun he => he ▸ hout, filterT_sig_col hp hl hwf hout⟩

/-- Witness for claim C6 at a concrete frame. -/
theorem claim_C6_witness :
    getCol ((filter_deseq_data dfUp 1 1 (-1)).getD ⟨[], []⟩) "Significance" =
      some [Cell.str "Upregulated"] := by
  have h := claim_C6_recompute_deterministic dfUp dfUp
    ((filter_deseq_data dfUp 1 1 (-1)).getD ⟨[], []⟩) 1 1 (-1)
    [some 0] [some 2] (by decide) rfl rfl rfl
  exact h.2

/-! ### Claim C7: the missing-`Attributes` fallback -/

lemma addGeneInfo_of_no_attributes {df : DFrame}
    (h : getCol df "Attributes" = none) :
    addGeneInfo df =
      (setCol (setCol df "gene_name"
          ((List.range df.rows.length).map fun i => Cell.str (toString i)))
        "locus_tag"
        ((List.range df.rows.length).map fun i => Cell.str (toString i)),
       true) := by
  unfold addGeneInfo
  rw [h]

/-- Claim C7: on a frame without an `Attributes` column the annotation
step is total (it is a plain function, never an error), surfaces the
warning flag, and sets both `gene_name` and `locus_tag` to the
stringified positional row index. -/
theorem claim_C7_missing_attributes (df : DFrame) (hwf : WF df)
    (hna : hasCol df "Attributes" = false) :
    (addGeneInfo df).2 = true ∧
    getCol (addGeneInfo df).1 "gene_name" =
      some ((List.range df.rows.length).map fun i => Cell.str (toString i)) ∧
    getCol (addGeneInfo df).1 "locus_tag" =
      some ((List.range df.rows.length).map fun i => Cell.str (toString i)) := by
  have hci : colIdx df.cols "Attributes" = none := by
    cases hco : colIdx df.cols "Attributes" with
    | none => rfl
    | some k =>
      unfold hasCol at hna
      rw [hco] at hna
      exact absurd hna (by simp)
  have hgc : getCol df "Attributes" = none := by
    unfold getCol
    rw [hci]
    rfl
  rw [addGeneInfo_of_no_attributes hgc]
  have hlen : ((List.range df.rows.length).map fun i =>
      Cell.str (toString i)).length = df.rows.length := by
    simp
  have hlen2 : ((List.range df.rows.length).map fun i =>
      Cell.str (toString i)).length =
      (setCol df "gene_name"
        ((List.range df.rows.length).map fun i =>
          Cell.str (toString i))).rows.length := by
    rw [setCol_rows_length hlen]
    exact hlen
  refine ⟨rfl, ?_, ?_⟩
  · rw [getCol_setCol_ne _ _ (by decide) (WF_setCol hwf) hlen2]
    exact getCol_setCol_self _ _ _ hwf hlen
  · exact getCol_setCol_self _ _ _ (WF_setCol hwf) hlen2

/-- Two-row frame without an `Attributes` column. -/
def dfC7 : DFrame :=
  ⟨["padj"], [[Cell.num 1], [Cell.num 2]]⟩

/-- Witness for claim C7 at a concrete frame. -/
theorem claim_C7_witness :
    (addGeneInfo dfC7).2 = true ∧
    getCol (addGeneInfo dfC7).1 "gene_name" =
      some [Cell.str "0", Cell.str "1"] := by
  have h := claim_C7_missing_attributes dfC7 (by decide) rfl
  exact ⟨h.1, h.2.1⟩

/-! ### Derived view helpers (source rows 244-245 and 376-380) -/

/-- Model of `Series.replace(0, 1e-10)` applied to one `baseMean` cell. -/
def replaceZeroBaseMean (q : ℚ) : ℚ :=
  if q = 0 then 1 / 10 ^ 10 else q

/-- Model of `np.log10(baseMean.replace(0, 1e-10))` for one cell; `NaN`
propagates. -/
noncomputable def log10BaseMeanCell : Option ℚ → Cell
  | some q => Cell.real (Real.logb 10 ((replaceZeroBaseMean q : ℚ) : ℝ))
  | none => Cell.null

/-- The MA-plot preparation step (source rows 244-245): when a `baseMean`
column exists, the assignment
`df_filtered['log10(baseMean)'] = np.log10(...)` writes a new column into
the annotated frame; without the column the step is skipped.  `none`
models the exception on a non-numeric `baseMean` column. -/
noncomputable def maPlotStep (df : DFrame) : Option DFrame :=
  if hasCol df "baseMean" then
    match getNumCol df "baseMean" with
    | some bs => some (setCol df "log10(baseMean)" (bs.map log10BaseMeanCell))
    | none => none
  else some df

/-- Elementwise `== label` on a column (source row 378): only a string
cell equal to the label matches; missing and numeric cells compare
false. -/
def cellEqStr (c : Cell) (s : String) : Bool :=
  match c with
  | Cell.str t => t = s
  | _ => false

/-- Case-insensitive plain-substring containment over character lists.
The source delegates to `Series.str.contains(term, case=False, na=False)`;
the spec describes it as a case-insensitive substring search, which is
what is modelled here (the regex interpretation of metacharacters in the
search term is outside this model). -/
def containsSub : List Char → List Char → Bool
  | [], pat => pat.isEmpty
  | c :: cs, pat => startsWithKey pat (c :: cs) || containsSub cs pat

/-- Model of `Series.str.contains(pat, case=False, na=False)` on one cell:
missing and non-string cells yield `false`. -/
def cellContainsCI (c : Cell) (pat : String) : Bool :=
  match c with
  | Cell.str t => containsSub (t.data.map Char.toLower) (pat.data.map Char.toLower)
  | _ => false

/-- Model of `display_df[display_df['Significance'] == show_sig]` (source row
378); `none` models the `KeyError` on a frame without the column. -/
def filterRowsBySig (df : DFrame) (s : String) : Option DFrame :=
  match colIdx df.cols "Significance" with
  | some i =>
    some ⟨df.cols, df.rows.filter fun r => cellEqStr (r.getD i Cell.null) s⟩
  | none => none

/-- Model of `display_df[display_df['gene_name'].str.contains(...)]` (source row
380). -/
def filterRowsBySearch (df : DFrame) (pat : String) : Option DFrame :=
  match colIdx df.cols "gene_name" with
  | some i =>
    some ⟨df.cols, df.rows.filter fun r => cellContainsCI (r.getD i Cell.null) pat⟩
  | none => none

/-- The data-table view filters (source rows 376-380): start from a copy
of the annotated frame, restrict to the selected significance category
unless `"All"`, then to the rows whose `gene_name` matches a non-empty
search term. -/
def displayFilter (df : DFrame) (showSig searchTerm : String) : Option DFrame :=
  match (if showSig = "All" then some df else filterRowsBySig df showSig) with
  | some df1 =>
    if searchTerm = "" then some df1 else filterRowsBySearch df1 searchTerm
  | none => none

lemma filterRowsBySig_spec {df out : DFrame} {s : String}
    (h : filterRowsBySig df s = some out) :
    out.cols = df.cols ∧ out.rows.Sublist df.rows := by
  unfold filterRowsBySig at h
  cases hc : colIdx df.cols "Significance" <;> rw [hc] at h
  · exact Option.noConfusion h
  · rw [Option.some.injEq] at h
    subst h
    exact ⟨rfl, List.filter_sublist _⟩

lemma filterRowsBySearch_spec {df out : DFrame} {pat : String}
    (h : filterRowsBySearch df pat = some out) :
    out.cols = df.cols ∧ out.rows.Sublist df.rows := by
  unfold filterRowsBySearch at h
  cases hc : colIdx df.cols "gene_name" <;> rw [hc] at h
  · exact Option.noConfusion h
  · rw [Option.some.injEq] at h
    subst h
    exact ⟨rfl, List.filter_sublist _⟩

/-! ### Claim C8: purity of the derived view helpers -/

/-- One-row frame with a numeric `baseMean` column. -/
def dfC8 : DFrame :=
  ⟨["baseMean"], [[Cell.num 5]]⟩

/-- Claim C8 counterexample: the log-base-10 transform of `baseMean` is
not a read-only projection — it adds the `log10(baseMean)` column to the
annotated table itself, so the table after the step differs from the
table before it. -/
theorem claim_C8_counterexample :
    (maPlotStep dfC8).map DFrame.cols = some ["baseMean", "log10(baseMean)"] ∧
    dfC8.cols = ["baseMean"] ∧
    maPlotStep dfC8 ≠ some dfC8 := by
  refine ⟨rfl, rfl, fun h => ?_⟩
  have h1 : (maPlotStep dfC8).map DFrame.cols =
      some ["baseMean", "log10(baseMean)"] := rfl
  rw [h] at h1
  exact absurd h1 (by decide)

/-- Claim C8 (amended): the category-equality filter and the
case-insensitive substring search are pure read-only projections — the
view they return keeps the column list and selects a sublist of the
rows, leaving the annotated frame itself untouched — while the
log-base-10 transform of `baseMean` writes the derived
`log10(baseMean)` column into the annotated table in place (extending
its column list), though it preserves the cells of every pre-existing
column. -/
theorem claim_C8_view_helpers_amended :
    (∀ df out : DFrame, ∀ showSig searchTerm : String,
      displayFilter df showSig searchTerm = some out →
      out.cols = df.cols ∧ out.rows.Sublist df.rows) ∧
    (∀ df : DFrame, ∀ bs : List (Option ℚ), ∀ out : DFrame,
      WF df → getNumCol df "baseMean" = some bs →
      "log10(baseMean)" ∉ df.cols → maPlotStep df = some out →
      out.cols = df.cols ++ ["log10(baseMean)"] ∧
      ∀ m ∈ df.cols, getCol out m = getCol df m) := by
  constructor
  · intro df out showSig searchTerm h
    unfold displayFilter at h
    cases hif : (if showSig = "All" then some df else filterRowsBySig df showSig) with
    | none =>
      rw [hif] at h
      exact Option.noConfusion h
    | some df1 =>
      rw [hif] at h
      have h1 : df1.cols = df.cols ∧ df1.rows.Sublist df.rows := by
        split_ifs at hif with hs
        · rw [Option.some.injEq] at hif
          subst hif
          exact ⟨rfl, List.Sublist.refl _⟩
        · exact filterRowsBySig_spec hif
      split_ifs at h with hp
      · rw [Option.some.injEq] at h
        subst h
        exact h1
      · have h2 := filterRowsBySearch_spec h
        exact ⟨h2.1.trans h1.1, h2.2.trans h1.2⟩
  · intro df bs out hwf hbs hnotin hout
    have hb : hasCol df "baseMean" = true := by
      unfold getNumCol at hbs
      cases hg : getCol df "baseMean" with
      | none =>
        rw [hg] at hbs
        exact Option.noConfusion hbs
      | some cells =>
        unfold getCol at hg
        cases hc : colIdx df.cols "baseMean" with
        | none =>
          rw [hc] at hg
          exact Option.noConfusion hg
        | some k =>
          unfold hasCol
          rw [hc]
          rfl
    unfold maPlotStep at hout
    rw [hb] at hout
    simp only [if_true] at hout
    rw [hbs, Option.some.injEq] at hout
    subst hout
    have hci : colIdx df.cols "log10(baseMean)" = none := by
      rw [← Option.not_isSome_iff_eq_none, colIdx_isSome_iff_mem]
      exact hnotin
    have hlen : (bs.map log10BaseMeanCell).length = df.rows.length := by
      rw [List.length_map]
      exact getNumCol_length hbs
    refine ⟨setCol_cols_of_new hci _, fun m hm => ?_⟩
    exact getCol_setCol_ne _ _ (fun he => hnotin (he ▸ hm)) hwf hlen

/-- Two-row annotated frame used by the C8 witness. -/
def dfC8v : DFrame :=
  ⟨["Significance", "gene_name"],
   [[Cell.str "Upregulated", Cell.str "dnaA"],
    [Cell.str "Not Significant", Cell.str "recB"]]⟩

/-- Witness for the amended claim C8 at concrete frames. -/
theorem claim_C8_witness :
    (((displayFilter dfC8v "Upregulated" "DNA").getD ⟨[], []⟩).cols =
        dfC8v.cols ∧
      ((displayFilter dfC8v "Upregulated" "DNA").getD ⟨[], []⟩).rows.Sublist
        dfC8v.rows) ∧
    ((maPlotStep dfC8).getD ⟨[], []⟩).cols = ["baseMean", "log10(baseMean)"] := by
  refine ⟨claim_C8_view_helpers_amended.1 dfC8v _ "Upregulated" "DNA" rfl, ?_⟩
  have h := claim_C8_view_helpers_amended.2 dfC8 [some 5]
    ((maPlotStep dfC8).getD ⟨[], []⟩) (by decide) rfl (by decide) rfl
  exact h.1

/-! ### The heatmap query (source rows 296-306) -/

/-- Model of `[col for col in df.columns if 'countings' in col.lower()]`
(source row 298). -/
def count_cols (df : DFrame) : List String :=
  df.cols.filter fun c => containsSub (c.data.map Char.toLower) "countings".data

/-- The sort key of a row: its `padj` cell, read as a number (only used
on frames whose `padj` column is fully numeric). -/
def keyPadj (j : ℕ) (r : List Cell) : ℚ :=
  match r.getD j Cell.null with
  | Cell.num q => q
  | _ => 0

/-- Ordering of rows by ascending `padj` cell. -/
def padjLe (j : ℕ) (a b : List Cell) : Prop :=
  keyPadj j a ≤ keyPadj j b

instance (j : ℕ) : DecidableRel (padjLe j) :=
  fun a b => inferInstanceAs (Decidable (keyPadj j a ≤ keyPadj j b))

instance (j : ℕ) : IsTotal (List Cell) (padjLe j) :=
  ⟨fun _ _ => le_total _ _⟩

instance (j : ℕ) : IsTrans (List Cell) (padjLe j) :=
  ⟨fun _ _ _ => le_trans⟩

/-- Read a list of cells as numbers, failing on missing or non-numeric
cells. -/
def cellsNumS : List Cell → Option (List ℚ)
  | [] => some []
  | c :: cs =>
    match c with
    | Cell.num q => (cellsNumS cs).map fun qs => q :: qs
    | _ => none

/-- Read the named column as numbers, strictly. -/
def getNumColS (df : DFrame) (n : String) : Option (List ℚ) :=
  (getCol df n).bind cellsNumS

/-- Model of `df.nsmallest(n, 'padj')` (source row 303): the frame restricted to
the `n` rows with smallest `padj`, in ascending order with earlier rows
first among ties (pandas `keep='first'` — a stable ascending sort
truncated to `n`).  `none` models the error on a missing or non-numeric
`padj` column. -/
def nsmallestPadj (df : DFrame) (n : ℕ) : Option DFrame :=
  match colIdx df.cols "padj", getNumColS df "padj" with
  | some j, some _ =>
    some ⟨df.cols, (List.insertionSort (padjLe j) df.rows).take n⟩
  | _, _ => none

/-! ### Claim C9: the top-N-by-padj query -/

/-- Claim C9: a successful top-N query keeps the column list and returns
the table stably sorted ascending by `padj` and truncated to `N`: the
sorted list is a permutation of the rows, is sorted by the `padj` key,
every returned row's `padj` is at most that of every row left out, and
the result has `min N (number of rows)` rows; and the count columns are
exactly the columns whose name contains the substring `countings`
case-insensitively. -/
theorem claim_C9_topN_by_padj (df out : DFrame) (nn j : ℕ) (qs : List ℚ)
    (hj : colIdx df.cols "padj" = some j)
    (hq : getNumColS df "padj" = some qs)
    (hout : nsmallestPadj df nn = some out) :
    out.cols = df.cols ∧
    out.rows = (List.insertionSort (padjLe j) df.rows).take nn ∧
    (List.insertionSort (padjLe j) df.rows).Perm df.rows ∧
    List.Sorted (padjLe j) (List.insertionSort (padjLe j) df.rows) ∧
    (∀ x ∈ out.rows, ∀ y ∈ (List.insertionSort (padjLe j) df.rows).drop nn,
      padjLe j x y) ∧
    out.rows.length = min nn df.rows.length ∧
    (∀ c, c ∈ count_cols df ↔ c ∈ df.cols ∧
      containsSub (c.data.map Char.toLower) "countings".data = true) := by
  unfold nsmallestPadj at hout
  rw [hj, hq, Option.some.injEq] at hout
  subst hout
  have hperm := List.perm_insertionSort (padjLe j) df.rows
  have hsort := List.sorted_insertionSort (padjLe j) df.rows
  refine ⟨rfl, rfl, hperm, hsort, ?_, ?_, ?_⟩
  · intro x hx y hy
    have hsplit := hsort
    rw [List.Sorted, ← List.take_append_drop nn
      (List.insertionSort (padjLe j) df.rows), List.pairwise_append] at hsplit
    exact hsplit.2.2 x hx y hy
  · rw [List.length_take, hperm.length_eq]
  · intro c
    unfold count_cols
    rw [List.mem_filter]

/-- Three-row frame with a `padj` column and one count column. -/
def dfC9 : DFrame :=
  ⟨["padj", "sampleCountings"],
   [[Cell.num 3, Cell.num 10],
    [Cell.num 1, Cell.num 20],
    [Cell.num 2, Cell.num 30]]⟩

/-- Witness for claim C9 at a concrete frame. -/
theorem claim_C9_witness :
    ((nsmallestPadj dfC9 2).getD ⟨[], []⟩).cols = dfC9.cols ∧
    ((nsmallestPadj dfC9 2).getD ⟨[], []⟩).rows.length = min 2 3 ∧
    count_cols dfC9 = ["sampleCountings"] := by
  have h := claim_C9_topN_by_padj dfC9 ((nsmallestPadj dfC9 2).getD ⟨[], []⟩)
    2 0 [3, 1, 2] rfl rfl rfl
  exact ⟨h.1, h.2.2.2.2.2.1, rfl⟩

end RnaseqViz
